import Mathlib

/-!
Verification development for the Radiolytics fingerprint matcher
(`src/radiolytics_server/fingerprint_matcher.py`).

The matching engine works on floating-point feature frames; here its
arithmetic is modelled over the exact real numbers `ℝ` (IEEE rounding is
far below every margin the claims depend on).  Lists model both Python
lists and the numpy arrays built from them; numpy's failure modes
(ragged nested lists, axis errors on non-array input, broadcast
mismatches) are modelled by an explicit `Except` layer that mirrors the
single `try`/`except` wrapping `_find_best_match_with_log`.
-/

namespace Radiolytics

/-- One fingerprint frame: one row `[RMS, centroid, energy, dB]` of the
nested `fingerprint` list (row length is not enforced by the source). -/
abbrev Frame := List ℝ

/-- A fingerprint: the nested list `[[...], [...], ...]` of frames. -/
abbrev Fingerprint := List Frame

/-- The per-station reference store
`self.reference_fingerprints : Dict[str, List[(ref_ts, ref_st, ref_fp)]]`,
modelled as an association list to keep Python's dict insertion order. -/
abbrev Buffer := List (String × List (ℤ × String × Fingerprint))

/-- The `1e-10` added to every row norm before dividing (line 423/440). -/
noncomputable def eps : ℝ := 1 / 10 ^ 10

/-- Row L2 norm: `np.linalg.norm(fp, axis=1)` for one row. -/
noncomputable def frameNorm (f : Frame) : ℝ :=
  Real.sqrt ((f.map fun x => x * x).sum)

/-- One row of `fp / (norms + 1e-10)[:, np.newaxis]`. -/
noncomputable def normalizeFrame (f : Frame) : Frame :=
  f.map fun x => x / (frameNorm f + eps)

/-- Element-wise product of two rows followed by `np.sum(..., axis=1)`,
including numpy broadcasting when one row has length 1.  Rows whose
lengths are incompatible never reach this function: the `Except` layer
raises first, as numpy does. -/
noncomputable def rowMulSum (a b : Frame) : ℝ :=
  if a.length = b.length then (List.zipWith (· * ·) a b).sum
  else if a.length = 1 then a.headD 0 * b.sum
  else if b.length = 1 then b.headD 0 * a.sum
  else 0

/-- Cosine-style similarity of one query row against one reference row:
dot product of the two normalized rows (line 445). -/
noncomputable def frameSim (a b : Frame) : ℝ :=
  rowMulSum (normalizeFrame a) (normalizeFrame b)

/-- `avg_sim` for offset `o` (lines 444-446): mean over the query's rows
of the row similarities against the window `ref_normalized[o:o+m]`. -/
noncomputable def avgSim (q r : Fingerprint) (o : ℕ) : ℝ :=
  (List.zipWith frameSim q (r.drop o)).sum / q.length

/-- `np.array(x)` followed by the `reshape(1, -1)` applied to 1-D input
(lines 419-420, 432-433): the empty nested list comes out of `np.array`
one-dimensional and is reshaped to a single empty row. -/
def reshape (fp : Fingerprint) : Fingerprint :=
  if fp.isEmpty then [[]] else fp

/-- The `best_match` tuple `(ref_ts, station, avg_sim, offset)` built at
line 460.  The station stored is the dict key of the outer loop. -/
structure MatchRes where
  ts : ℤ
  station : String
  sim : ℝ
  offset : ℕ

/-- The update at lines 458-463: the running best is replaced only when
the new score is strictly greater (`avg_sim > best_similarity`), so the
first maximum encountered is kept.  The initial `-inf` state is the
`none` case. -/
noncomputable def keepBest (best : Option MatchRes) (r : MatchRes) : Option MatchRes :=
  match best with
  | none => some r
  | some b => if b.sim < r.sim then some r else some b

/-- One iteration of the offset loop (lines 443-463). -/
noncomputable def considerOffset (q r : Fingerprint) (ts : ℤ) (st : String)
    (best : Option MatchRes) (o : ℕ) : Option MatchRes :=
  keepBest best ⟨ts, st, avgSim q r o, o⟩

/-- One reference entry (lines 430-463): skip when the query is longer
than the reference (`if m > n: continue`), else fold the offsets
`range(n - m + 1)`. -/
noncomputable def considerEntry (q : Fingerprint) (st : String)
    (best : Option MatchRes) (e : ℤ × String × Fingerprint) : Option MatchRes :=
  let r := reshape e.2.2
  if r.length < q.length then best
  else (List.range (r.length - q.length + 1)).foldl (considerOffset q r e.1 st) best

/-- One station of the outer loop (line 429). -/
noncomputable def considerStation (q : Fingerprint)
    (best : Option MatchRes) (p : String × List (ℤ × String × Fingerprint)) :
    Option MatchRes :=
  p.2.foldl (considerEntry q p.1) best

/-- The whole double loop of `_find_best_match_with_log`, yielding the
final `best_match` (with `best_similarity` inside it). -/
noncomputable def bestOverBuffer (buf : Buffer) (q : Fingerprint) : Option MatchRes :=
  buf.foldl (considerStation q) none

/-- Matcher state and configuration (`FingerprintMatcher.__init__` with
the `config.json` defaults: threshold 0.75, min frames 10, buffer 3). -/
structure Matcher where
  MATCH_THRESHOLD : ℝ
  MIN_FRAMES_MATCH : ℕ
  BUFFER_MINUTES : ℤ
  reference_fingerprints : Buffer

/-- The value-level decision of `_find_best_match_with_log` (lines
482-493): return the best tuple iff one exists and its similarity
reaches `MATCH_THRESHOLD`, else `None`. -/
noncomputable def findBestMatch (m : Matcher) (q : Fingerprint) : Option MatchRes :=
  match bestOverBuffer m.reference_fingerprints (reshape q) with
  | some b => if m.MATCH_THRESHOLD ≤ b.sim then some b else none
  | none => none

/-- All `(source, entry, offset)` comparison triples of one entry, in
iteration order, each carrying its `avg_sim`. -/
noncomputable def entryTriples (q : Fingerprint) (st : String)
    (e : ℤ × String × Fingerprint) : List MatchRes :=
  let r := reshape e.2.2
  if r.length < q.length then []
  else (List.range (r.length - q.length + 1)).map fun o => ⟨e.1, st, avgSim q r o, o⟩

/-- All comparison triples of the whole buffer, in the deterministic
iteration order of the source's double loop. -/
noncomputable def allTriples (buf : Buffer) (q : Fingerprint) : List MatchRes :=
  buf.flatMap fun p => p.2.flatMap (entryTriples q p.1)

/-- Row width of a nested list once it is a numpy array. -/
def width (fp : Fingerprint) : ℕ := (fp.headD []).length

/-- Whether a nested list builds a proper 2-D `np.array`: every row has
the same length.  A ragged nested list makes `np.array` (or the first
`np.linalg.norm` on the resulting object array) raise. -/
def rect (fp : Fingerprint) : Bool :=
  fp.all fun f => f.length = width fp

/-- Numpy broadcast compatibility of two row widths for the element-wise
product at line 445. -/
def broadcastOK (k k' : ℕ) : Bool :=
  k = k' || k = 1 || k' = 1

/-- The exceptions `_find_best_match_with_log` can raise internally and
catch at line 494: `np.linalg.norm(..., axis=1)` on the 0-d array made
from a missing (`None`) fingerprint, array creation from a ragged nested
list, and a broadcast mismatch in the window product. -/
inductive MatchError where
  | axisError
  | raggedArray
  | broadcastMismatch
deriving DecidableEq

/-- The `str(e)`-bearing error log line built at line 495 (the literal
numpy message text is environment-dependent and abstracted here). -/
def errorText : MatchError → String
  | .axisError => "MATCH_ERROR: axis 1 is out of bounds for array of dimension 0"
  | .raggedArray => "MATCH_ERROR: could not build array from ragged nested list"
  | .broadcastMismatch => "MATCH_ERROR: operands could not be broadcast together"

/-- The second return value of `_find_best_match_with_log`: the summary
or error line handed back to `_download_app_fingerprints` as
`debug_log`.  The source builds a string; its interpolated fields are
kept structured here (`f"{best_similarity:.4f}"` becomes the `ℝ` itself,
the initial `-inf` / `None` diagnostics become `Option.none`). -/
inductive Summary where
  | matched (ts : ℤ) (station : String) (sim : ℝ) (offset : ℕ)
  | noMatch (bestSim : Option ℝ) (bestRef : Option String)
      (bestStation : Option String) (bestOffset : ℕ)
  | error (msg : String)

/-- The no-match summary line of lines 485-486, built from the final
best tuple: `best_similarity`, `best_ref_filename` (`f"{ts}_{station}"`),
`best_station`, `best_offset`, or their initial values when no
comparison ran. -/
noncomputable def noMatchSummary : Option MatchRes → Summary
  | none => .noMatch none none none 0
  | some b => .noMatch (some b.sim) (some (toString b.ts ++ "_" ++ b.station))
      (some b.station) b.offset

/-- The raising points of the reference loop in source order: for each
entry `np.array(ref_fp)` raises on a ragged list (line 431); when the
entry is long enough to be compared, the first window product raises if
the row widths cannot broadcast (line 445). -/
def refsCheck (q' : Fingerprint) (buf : Buffer) : Except MatchError Unit :=
  buf.forM fun p => p.2.forM fun e =>
    if rect e.2.2 then
      let r := reshape e.2.2
      if q'.length ≤ r.length then
        if broadcastOK (width q') (width r) then pure () else throw .broadcastMismatch
      else pure ()
    else throw .raggedArray

/-- The body of the `try` at lines 409-493: fail where numpy raises,
otherwise return the decision together with the summary line. -/
noncomputable def matchBody (m : Matcher) (q? : Option Fingerprint) :
    Except MatchError (Option MatchRes × Summary) := do
  match q? with
  | none => throw .axisError
  | some q =>
    if rect q then do
      let q' := reshape q
      refsCheck q' m.reference_fingerprints
      match bestOverBuffer m.reference_fingerprints q' with
      | some b =>
        if m.MATCH_THRESHOLD ≤ b.sim then
          pure (some b, Summary.matched b.ts b.station b.sim b.offset)
        else pure (none, noMatchSummary (some b))
      | none => pure (none, noMatchSummary none)
    else throw .raggedArray

/-- `_find_best_match_with_log` including its `except Exception` handler
(lines 494-497): any internal error is caught and turned into
`(None, error_msg)`. -/
noncomputable def findBestMatchWithLog (m : Matcher) (q? : Option Fingerprint) :
    Option MatchRes × Summary :=
  match matchBody m q? with
  | .ok r => r
  | .error e => (none, Summary.error (errorText e))

/-- A reference blob as seen by `_load_reference_fingerprints`:
`parsed` is the `(timestamp, station)` the source extracts from the
filename (`None` when the name is malformed or an AppFingerprint, both
skipped by `continue`), and `fingerprint` is `data.get('fingerprint')`. -/
structure RefBlob where
  parsed : Option (ℤ × String)
  fingerprint : Option Fingerprint

/-- `self.reference_fingerprints.get(station, [])`. -/
def lookupStation (buf : Buffer) (st : String) : List (ℤ × String × Fingerprint) :=
  (((buf.find? fun p => p.1 = st).map fun p => p.2).getD [])

/-- Dict insertion: append to the station's list, creating the key at
the end of the dict when absent (lines 265-267). -/
def insertRef (buf : Buffer) (st : String) (e : ℤ × String × Fingerprint) : Buffer :=
  if buf.any fun p => p.1 = st then
    buf.map fun p => if p.1 = st then (p.1, p.2 ++ [e]) else p
  else buf ++ [(st, [e])]

/-- One blob of the reference loading loop (lines 221-270): skip
malformed names, skip entries older than the cutoff, skip `(ts, st)`
pairs already buffered, skip missing fingerprints, else insert. -/
def loadRefStep (cutoff : ℤ) (buf : Buffer) (b : RefBlob) : Buffer :=
  match b.parsed with
  | none => buf
  | some (ts, st) =>
    if ts < cutoff then buf
    else if (lookupStation buf st).any fun e => e.1 = ts && e.2.1 = st then buf
    else match b.fingerprint with
      | none => buf
      | some fp => insertRef buf st (ts, st, fp)

/-- The eviction sweep at lines 272-277: drop every entry with
`ref_ts < cutoff_time` from every station. -/
def sweep (cutoff : ℤ) (buf : Buffer) : Buffer :=
  buf.map fun p => (p.1, p.2.filter fun e => cutoff ≤ e.1)

/-- `_load_reference_fingerprints` under a logical clock: the cutoff
`now - BUFFER_MINUTES * 60` is computed once (line 217), new blobs are
folded in, then the sweep runs; the buffer this returns is exactly the
view `_download_app_fingerprints` then matches against in the same
cycle. -/
def loadReferenceFingerprints (m : Matcher) (now : ℤ) (blobs : List RefBlob)
    (buf : Buffer) : Buffer :=
  let cutoff := now - m.BUFFER_MINUTES * 60
  sweep cutoff (blobs.foldl (loadRefStep cutoff) buf)

/-- The payload of one AppFingerprint record: `data.get('fingerprint')`
and `data.get('timestamp')`, each possibly missing. -/
structure QueryData where
  fingerprint : Option Fingerprint
  timestamp : Option ℤ

/-- One downloaded AppFingerprint file in `device_files`: the timestamp
parsed from its filename, the blob name, and the parsed payload. -/
structure QueryFile where
  ts : ℤ
  name : String
  data : QueryData

/-- `sorted(files, key=lambda x: x[0], reverse=True)`: Python's stable
descending sort by timestamp. -/
def pySortedDesc (files : List QueryFile) : List QueryFile :=
  files.mergeSort fun a b => b.ts ≤ a.ts

/-- `files_sorted[0]`: the newest file of one device (lines 334-335). -/
def selectNewest (files : List QueryFile) : Option QueryFile :=
  (pySortedDesc files).head?

/-- The records a cycle actually hands to the match engine: for each
device the newest file, unless its blob name is already in
`processed_files` (lines 333-340). -/
def deviceInvocations (deviceFiles : List (String × List QueryFile))
    (processed : List String) : List (String × QueryFile) :=
  deviceFiles.filterMap fun p =>
    (selectNewest p.2).bind fun f =>
      if f.name ∈ processed then none else some (p.1, f)

/-- One document written to the `results` collection (lines 377-394),
keyed by the ambient `time_str`. -/
structure SinkWrite where
  key : String
  station : String
  confidence : ℝ
  debugLog : Summary

/-- `datetime.fromtimestamp(ts_sec).strftime("%H-%M-%S")`; the exact
text is immaterial to every claim, only that it is a function of the
second-resolution timestamp. -/
def timeStrOf (t : ℤ) : String := toString t

/-- The exception the match branch raises when `uploaded_ts` is missing:
`None > 1e12` is a `TypeError` in Python 3 (line 371). -/
inductive DeviceError where
  | typeErrorNoneComparison
deriving DecidableEq

/-- Per-device processing (lines 341-397) for one selected file, given
the ambient `time_str` left over from the scan loop: run the matcher;
on a match (re)compute `time_str` from the record timestamp and write
the match document; on no match write the `Unknown` / `0.0` document
under the ambient key.  Returns the write and the `time_str` in scope
afterwards; CSV logging (its errors are swallowed at line 368-369) and
`processed_files` bookkeeping are not part of the claims modelled
here. -/
noncomputable def processDevice (m : Matcher) (timeStr : String) (f : QueryFile) :
    Except DeviceError (SinkWrite × String) := do
  let (best?, summary) := findBestMatchWithLog m f.data.fingerprint
  match best? with
  | some b =>
    match f.data.timestamp with
    | none => throw .typeErrorNoneComparison
    | some uts =>
      let tsSec := if uts > 10 ^ 12 then uts / 1000 else uts
      let tstr := timeStrOf tsSec
      pure (⟨tstr, b.station, b.sim, summary⟩, tstr)
  | none => pure (⟨timeStr, "Unknown", 0, summary⟩, timeStr)

/-- Count of individually-above-threshold row pairs for one alignment.
Modelled from the spec: the source never computes this. -/
noncomputable def countAbove (thr : ℝ) (q r : Fingerprint) (o : ℕ) : ℕ :=
  ((List.zipWith frameSim q (r.drop o)).filter fun s => decide (thr ≤ s)).length

/-- Count of above-threshold row pairs at the winning alignment, looked
up through the winning entry's `(station, ts)`.  Modelled from the spec
(§4.2): support for the frame-count-gated policy. -/
noncomputable def bestCountAbove (m : Matcher) (q' : Fingerprint) (b : MatchRes) : ℕ :=
  match (lookupStation m.reference_fingerprints b.station).find?
      fun e => decide (e.1 = b.ts) with
  | some e => countAbove m.MATCH_THRESHOLD q' (reshape e.2.2) b.offset
  | none => 0

/-- Modelled from the spec: the frame-count-gated acceptance policy of
§4.2 ("require a minimum count of individually-above-threshold frames
before accepting the average"), which the source does not implement.
Defined only to be compared against `findBestMatch`. -/
noncomputable def gatedFindBestMatch (m : Matcher) (q : Fingerprint) : Option MatchRes :=
  match bestOverBuffer m.reference_fingerprints (reshape q) with
  | some b =>
    if m.MATCH_THRESHOLD ≤ b.sim ∧ m.MIN_FRAMES_MATCH ≤ bestCountAbove m (reshape q) b then
      some b
    else none
  | none => none

/-- The unit-direction frame used in small concrete scenarios. -/
noncomputable def frame1000 : Frame := [1, 0, 0, 0]

/-- The reference frame `[0.5, 0.5, 0.5, -5.0]` of the repo's test
scenario (`tests/test_matcher.py`). -/
noncomputable def frame055 : Frame := [1/2, 1/2, 1/2, -5]

/-- The query frame `[0.0, 0.0, 0.0, -200.0]` of the repo's
`test_false_positive`. -/
noncomputable def frame0200 : Frame := [0, 0, 0, -200]

/-- A frame whose norm equals the `1e-10` normalization epsilon. -/
noncomputable def tinyFrame : Frame := [1/10^10, 0, 0, 0]

/-- A frame orthogonal to `frame1000`. -/
noncomputable def frame0100 : Frame := [0, 1, 0, 0]

/-- Reference of the repo's test scenario: 20 frames of `frame055`. -/
noncomputable def c1ref : Fingerprint := List.replicate 20 frame055

/-- Query of `test_false_positive`: 20 frames of `frame0200`. -/
noncomputable def c1q : Fingerprint := List.replicate 20 frame0200

/-- The matcher state of the repo's test scenario, with the
`config.json` defaults. -/
noncomputable def c1m : Matcher :=
  ⟨3/4, 10, 3, [("TestStation", [(1234567890, "TestStation", c1ref)])]⟩

/-- Sequence for the exact-match scenario: identical to `c1ref`. -/
noncomputable def c4S : Fingerprint := List.replicate 20 frame055

/-- Matcher holding `c4S` as its only reference. -/
noncomputable def c4m : Matcher :=
  ⟨3/4, 10, 3, [("TestStation", [(1234567890, "TestStation", c4S)])]⟩

/-- A one-frame non-zero sequence whose norm equals the epsilon. -/
noncomputable def tinyS : Fingerprint := [tinyFrame]

/-- Matcher holding `tinyS` as its only reference. -/
noncomputable def c4tinyM : Matcher :=
  ⟨3/4, 10, 3, [("TestStation", [(0, "TestStation", tinyS)])]⟩

/-- Two-frame constant reference for the tie-break scenario. -/
noncomputable def c6ref : Fingerprint := [frame1000, frame1000]

/-- One-frame query sliding over `c6ref` at two offsets of equal
similarity. -/
noncomputable def c6q : Fingerprint := [frame1000]

/-- Buffer holding `c6ref` under station `S`. -/
noncomputable def c6buf : Buffer := [("S", [(0, "S", c6ref)])]

/-- Matcher over `c6buf` with default configuration. -/
noncomputable def c6m : Matcher := ⟨3/4, 10, 3, c6buf⟩

/-- Same buffer and threshold as `c6m`, different `MIN_FRAMES_MATCH`
and `BUFFER_MINUTES`. -/
noncomputable def c6m2 : Matcher := ⟨3/4, 0, 99, c6buf⟩

/-- Two-frame constant reference, fewer frames than the default
`MIN_FRAMES_MATCH = 10`. -/
noncomputable def c7ref : Fingerprint := List.replicate 2 frame1000

/-- Query identical to `c7ref`. -/
noncomputable def c7q : Fingerprint := List.replicate 2 frame1000

/-- Matcher holding `c7ref`, with the default `MIN_FRAMES_MATCH = 10`. -/
noncomputable def c7m : Matcher := ⟨3/4, 10, 3, [("S", [(0, "S", c7ref)])]⟩

/-- Matcher with an empty reference buffer. -/
noncomputable def c2m : Matcher := ⟨3/4, 10, 3, []⟩

/-- A well-formed query file that matches nothing (empty buffer). -/
noncomputable def c2f : QueryFile := ⟨5, "q.json", ⟨some [frame1000], some 5⟩⟩

/-- A query file with both `fingerprint` and `timestamp` missing. -/
noncomputable def c8f : QueryFile := ⟨5, "b.json", ⟨none, none⟩⟩

/-- Matcher with the single orthogonal reference, for the rejection
scenario. -/
noncomputable def c3m : Matcher := ⟨3/4, 10, 3, [("S", [(0, "S", [frame1000])])]⟩

/-- Query orthogonal to the only buffered reference. -/
noncomputable def c3q : Fingerprint := [frame0100]

/-- A reference blob inside the retention window. -/
noncomputable def c5blob : RefBlob := ⟨some (900, "S"), some [frame1000]⟩

/-- Matcher with the default 3-minute window and empty buffer. -/
noncomputable def c5m : Matcher := ⟨3/4, 10, 3, []⟩

/-- A single pending query file for the supersession scenario. -/
noncomputable def c9f : QueryFile := ⟨5, "a.json", ⟨some [frame1000], some 5⟩⟩

/-- Inputs on which the numpy pipeline raises nothing: the query nested
list is rectangular, every buffered reference is rectangular, and every
reference long enough to be compared has a broadcast-compatible row
width. -/
def wellFormedQ (m : Matcher) (q : Fingerprint) : Prop :=
  rect q = true ∧ ∀ p ∈ m.reference_fingerprints, ∀ e ∈ p.2,
    rect e.2.2 = true ∧
      ((reshape q).length ≤ (reshape e.2.2).length →
        broadcastOK (width (reshape q)) (width (reshape e.2.2)) = true)

lemma foldl_flatMap {α β γ : Type _} (f : β → α → β) (g : γ → List α)
    (l : List γ) (b : β) :
    (l.flatMap g).foldl f b = l.foldl (fun b c => (g c).foldl f b) b := by
  induction l generalizing b with
  | nil => rfl
  | cons h t ih => simp [List.flatMap_cons, List.foldl_append, ih]

lemma considerEntry_eq (q : Fingerprint) (st : String) (best : Option MatchRes)
    (e : ℤ × String × Fingerprint) :
    considerEntry q st best e = (entryTriples q st e).foldl keepBest best := by
  by_cases h : (reshape e.2.2).length < q.length
  · simp only [considerEntry, entryTriples, if_pos h]
    rfl
  · simp only [considerEntry, entryTriples, if_neg h]
    rw [List.foldl_map]
    rfl

lemma considerStation_eq (q : Fingerprint) (best : Option MatchRes)
    (p : String × List (ℤ × String × Fingerprint)) :
    considerStation q best p = (p.2.flatMap (entryTriples q p.1)).foldl keepBest best := by
  unfold considerStation
  rw [foldl_flatMap]
  have h : considerEntry q p.1 = fun b e => (entryTriples q p.1 e).foldl keepBest b :=
    funext fun b => funext fun e => considerEntry_eq q p.1 b e
  rw [h]

lemma bestOverBuffer_eq (buf : Buffer) (q : Fingerprint) :
    bestOverBuffer buf q = (allTriples buf q).foldl keepBest none := by
  unfold bestOverBuffer allTriples
  rw [foldl_flatMap]
  have h : considerStation q
      = fun best p => (p.2.flatMap (entryTriples q p.1)).foldl keepBest best :=
    funext fun best => funext fun p => considerStation_eq q best p
  rw [h]

lemma foldl_keepBest_isSome (l : List MatchRes) (b : MatchRes) :
    (l.foldl keepBest (some b)).isSome := by
  induction l generalizing b with
  | nil => rfl
  | cons a t ih =>
    simp only [List.foldl_cons, keepBest]
    split
    · exact ih _
    · exact ih _

lemma foldl_keepBest_mem (l : List MatchRes) :
    ∀ s r, l.foldl keepBest s = some r → s = some r ∨ r ∈ l := by
  induction l with
  | nil => exact fun s r h => Or.inl h
  | cons a t ih =>
    intro s r h
    simp only [List.foldl_cons] at h
    rcases ih _ r h with h' | h'
    · cases s with
      | none =>
        simp only [keepBest] at h'
        right
        simp [Option.some_inj.mp h'.symm]
      | some b =>
        simp only [keepBest] at h'
        split at h'
        · right
          simp [Option.some_inj.mp h'.symm]
        · exact Or.inl h'
    · right
      exact List.mem_cons_of_mem a h'

lemma foldl_keepBest_le (l : List MatchRes) :
    ∀ s r, l.foldl keepBest s = some r →
      (∀ x ∈ l, x.sim ≤ r.sim) ∧ (∀ b, s = some b → b.sim ≤ r.sim) := by
  induction l with
  | nil =>
    intro s r h
    refine ⟨by simp, fun b hb => ?_⟩
    rw [hb] at h
    cases h
    exact le_refl _
  | cons a t ih =>
    intro s r h
    simp only [List.foldl_cons] at h
    obtain ⟨h1, h2⟩ := ih _ r h
    have hstep : ∀ b, keepBest s a = some b → a.sim ≤ b.sim ∧ ∀ c, s = some c → c.sim ≤ b.sim := by
      intro b hb
      cases s with
      | none =>
        simp only [keepBest] at hb
        cases hb
        exact ⟨le_refl _, by simp⟩
      | some c =>
        simp only [keepBest] at hb
        by_cases hlt : c.sim < a.sim
        · rw [if_pos hlt] at hb
          cases hb
          exact ⟨le_refl _, fun c' hc' => by cases hc'; exact le_of_lt hlt⟩
        · rw [if_neg hlt] at hb
          cases hb
          exact ⟨not_lt.mp hlt, fun c' hc' => by cases hc'; exact le_refl _⟩
    cases hk : keepBest s a with
    | none =>
      rw [hk] at h
      cases s with
      | none => simp [keepBest] at hk
      | some c =>
        simp only [keepBest] at hk
        split at hk <;> cases hk
    | some b =>
      rw [hk] at h
      obtain ⟨hab, hsb⟩ := hstep b hk
      have hbr : b.sim ≤ r.sim := h2 b hk
      refine ⟨?_, fun c hc => le_trans (hsb c hc) hbr⟩
      intro x hx
      rcases List.mem_cons.mp hx with rfl | hx'
      · exact le_trans hab hbr
      · exact h1 x hx'

lemma foldl_keepBest_stay (l : List MatchRes) (b : MatchRes)
    (h : ∀ x ∈ l, x.sim ≤ b.sim) : l.foldl keepBest (some b) = some b := by
  induction l with
  | nil => rfl
  | cons a t ih =>
    have hk : keepBest (some b) a = some b := by
      simp [keepBest, not_lt.mpr (h a (by simp))]
    simp only [List.foldl_cons, hk]
    exact ih fun x hx => h x (List.mem_cons_of_mem a hx)

lemma foldl_keepBest_first (l₁ l₂ : List MatchRes) (r : MatchRes)
    (h₁ : ∀ x ∈ l₁, x.sim < r.sim) (h₂ : ∀ x ∈ l₂, x.sim ≤ r.sim) :
    (l₁ ++ r :: l₂).foldl keepBest none = some r := by
  rw [List.foldl_append]
  have key : l₁.foldl keepBest none = none
      ∨ ∃ y, l₁.foldl keepBest none = some y ∧ y.sim < r.sim := by
    cases hfold : l₁.foldl keepBest none with
    | none => exact Or.inl rfl
    | some y =>
      refine Or.inr ⟨y, rfl, ?_⟩
      rcases foldl_keepBest_mem l₁ none y hfold with h | h
      · cases h
      · exact h₁ y h
  rcases key with hk | ⟨y, hy, hylt⟩
  · rw [hk]
    simp only [List.foldl_cons, keepBest]
    exact foldl_keepBest_stay l₂ r h₂
  · rw [hy]
    simp only [List.foldl_cons, keepBest, if_pos hylt]
    exact foldl_keepBest_stay l₂ r h₂

lemma bestOverBuffer_spec (buf : Buffer) (q : Fingerprint) (b : MatchRes)
    (h : bestOverBuffer buf q = some b) :
    b ∈ allTriples buf q ∧ ∀ x ∈ allTriples buf q, x.sim ≤ b.sim := by
  rw [bestOverBuffer_eq] at h
  rcases foldl_keepBest_mem _ _ _ h with h' | h'
  · cases h'
  · exact ⟨h', (foldl_keepBest_le _ _ _ h).1⟩

lemma bestOverBuffer_isSome (buf : Buffer) (q : Fingerprint)
    (h : allTriples buf q ≠ []) : (bestOverBuffer buf q).isSome := by
  rw [bestOverBuffer_eq]
  cases hl : allTriples buf q with
  | nil => exact absurd hl h
  | cons a t =>
    simp only [List.foldl_cons, keepBest]
    exact foldl_keepBest_isSome t a

lemma forM_ok {ε α : Type _} (l : List α) (f : α → Except ε PUnit)
    (h : ∀ x ∈ l, f x = Except.ok PUnit.unit) : l.forM f = Except.ok PUnit.unit := by
  induction l with
  | nil => rfl
  | cons a t ih =>
    show (f a >>= fun _ => t.forM f) = Except.ok PUnit.unit
    rw [h a (List.mem_cons_self a t)]
    exact ih fun x hx => h x (List.mem_cons_of_mem a hx)

lemma refsCheck_ok (q' : Fingerprint) (buf : Buffer)
    (h : ∀ p ∈ buf, ∀ e ∈ p.2, rect e.2.2 = true ∧
      (q'.length ≤ (reshape e.2.2).length →
        broadcastOK (width q') (width (reshape e.2.2)) = true)) :
    refsCheck q' buf = Except.ok PUnit.unit := by
  unfold refsCheck
  refine forM_ok _ _ fun p hp => forM_ok _ _ fun e he => ?_
  obtain ⟨hr, hb⟩ := h p hp e he
  by_cases hle : q'.length ≤ (reshape e.2.2).length
  · simp [hr, hle, hb hle]
    rfl
  · simp [hr, hle]
    rfl

lemma matchBody_ok (m : Matcher) (q : Fingerprint) (hwf : wellFormedQ m q) :
    matchBody m (some q) = Except.ok
      (match bestOverBuffer m.reference_fingerprints (reshape q) with
       | some b =>
         if m.MATCH_THRESHOLD ≤ b.sim then
           (some b, Summary.matched b.ts b.station b.sim b.offset)
         else (none, noMatchSummary (some b))
       | none => (none, noMatchSummary none)) := by
  obtain ⟨hq, href⟩ := hwf
  unfold matchBody
  simp only [hq, if_true]
  rw [refsCheck_ok (reshape q) m.reference_fingerprints href]
  cases hb : bestOverBuffer m.reference_fingerprints (reshape q) with
  | none =>
    simp only [hb]
    rfl
  | some b =>
    simp only [hb]
    by_cases ht : m.MATCH_THRESHOLD ≤ b.sim
    · simp only [if_pos ht]
      rfl
    · simp only [if_neg ht]
      rfl

lemma withLog_fst (m : Matcher) (q : Fingerprint) (hwf : wellFormedQ m q) :
    (findBestMatchWithLog m (some q)).1 = findBestMatch m q := by
  unfold findBestMatchWithLog findBestMatch
  rw [matchBody_ok m q hwf]
  cases hb : bestOverBuffer m.reference_fingerprints (reshape q) with
  | none => simp [hb]
  | some b => by_cases ht : m.MATCH_THRESHOLD ≤ b.sim <;> simp [hb, ht]

lemma withLog_none (m : Matcher) (q : Fingerprint) (hwf : wellFormedQ m q)
    (hn : findBestMatch m q = none) :
    findBestMatchWithLog m (some q)
      = (none, noMatchSummary (bestOverBuffer m.reference_fingerprints (reshape q))) := by
  unfold findBestMatchWithLog
  rw [matchBody_ok m q hwf]
  unfold findBestMatch at hn
  cases hb : bestOverBuffer m.reference_fingerprints (reshape q) with
  | none => simp [hb]
  | some b =>
    rw [hb] at hn
    by_cases ht : m.MATCH_THRESHOLD ≤ b.sim
    · simp [ht] at hn
    · simp [hb, ht]

lemma reshape_eq {S : Fingerprint} (h : S ≠ []) : reshape S = S := by
  cases S with
  | nil => exact absurd rfl h
  | cons a t => rfl

lemma sum_zipWith_mul_const (a b : List ℝ) (k : ℝ) :
    (List.zipWith (fun x y => x * y * k) a b).sum
      = (List.zipWith (· * ·) a b).sum * k := by
  induction a generalizing b with
  | nil => simp
  | cons x xs ih =>
    cases b with
    | nil => simp
    | cons y ys => simp [ih, add_mul]

lemma zipWith_div_div (a b : List ℝ) (A B : ℝ) :
    List.zipWith (· * ·) (a.map fun x => x / A) (b.map fun y => y / B)
      = List.zipWith (fun x y => x * y * (1/(A*B))) a b := by
  induction a generalizing b with
  | nil => simp
  | cons x xs ih =>
    cases b with
    | nil => simp
    | cons y ys =>
      simp only [List.map_cons, List.zipWith_cons_cons, ih]
      congr 1
      ring

lemma frameSim_eq (a b : Frame) (h : a.length = b.length) :
    frameSim a b = (List.zipWith (· * ·) a b).sum
      / ((frameNorm a + eps) * (frameNorm b + eps)) := by
  unfold frameSim rowMulSum normalizeFrame
  rw [if_pos (by simp [h])]
  rw [zipWith_div_div, sum_zipWith_mul_const, mul_one_div]

lemma frameSim_self (f : Frame) :
    frameSim f f = (frameNorm f)^2 / (frameNorm f + eps)^2 := by
  rw [frameSim_eq f f rfl]
  congr 1
  · rw [List.zipWith_same]
    unfold frameNorm
    rw [Real.sq_sqrt]
    exact List.sum_nonneg fun x hx => by
      obtain ⟨y, hy, rfl⟩ := List.mem_map.mp hx
      exact mul_self_nonneg y
  · ring

lemma eps_pos : (0:ℝ) < eps := by norm_num [eps]

lemma frameSim_self_ge (f : Frame) (c : ℝ) (hc : 0 < c) (hN : c ≤ frameNorm f) :
    (c/(c+eps))^2 ≤ frameSim f f := by
  have heps := eps_pos
  have hN0 : 0 < frameNorm f := lt_of_lt_of_le hc hN
  rw [frameSim_self]
  have key : c/(c+eps) ≤ frameNorm f/(frameNorm f+eps) := by
    rw [div_le_div_iff (by linarith) (by linarith)]
    nlinarith [mul_le_mul_of_nonneg_right hN (le_of_lt heps)]
  have h1 : 0 ≤ c/(c+eps) := by positivity
  calc (c/(c+eps))^2 ≤ (frameNorm f/(frameNorm f+eps))^2 := pow_le_pow_left h1 key 2
    _ = (frameNorm f)^2/(frameNorm f+eps)^2 := div_pow _ _ 2

lemma avgSim_self (S : Fingerprint) :
    avgSim S S 0 = (S.map fun f => frameSim f f).sum / S.length := by
  unfold avgSim
  rw [List.drop_zero, List.zipWith_same]

lemma avgSim_self_ge (S : Fingerprint) (hS : S ≠ []) (b : ℝ)
    (h : ∀ f ∈ S, b ≤ frameSim f f) : b ≤ avgSim S S 0 := by
  rw [avgSim_self]
  have hlen : 0 < (S.length : ℝ) := by exact_mod_cast List.length_pos.mpr hS
  rw [le_div_iff hlen]
  have hsum : (S.map fun f => frameSim f f).length • b ≤ (S.map fun f => frameSim f f).sum :=
    List.card_nsmul_le_sum _ _ fun x hx => by
      obtain ⟨f, hf, rfl⟩ := List.mem_map.mp hx
      exact h f hf
  rw [List.length_map, nsmul_eq_mul] at hsum
  linarith

lemma avgSim_replicate (a b : Frame) (n : ℕ) (hn : n ≠ 0) :
    avgSim (List.replicate n a) (List.replicate n b) 0 = frameSim a b := by
  unfold avgSim
  rw [List.drop_zero, List.zipWith_replicate, min_self, List.sum_replicate,
    List.length_replicate, nsmul_eq_mul]
  rw [mul_comm, mul_div_assoc, div_self (by exact_mod_cast hn), mul_one]

lemma bestOverBuffer_single_eq (st : String) (ts : ℤ) (sid : String)
    (R q : Fingerprint) (hlen : (reshape R).length = q.length) :
    bestOverBuffer [(st, [(ts, sid, R)])] q
      = some ⟨ts, st, avgSim q (reshape R) 0, 0⟩ := by
  rw [bestOverBuffer_eq]
  have htrip : allTriples [(st, [(ts, sid, R)])] q
      = [⟨ts, st, avgSim q (reshape R) 0, 0⟩] := by
    unfold allTriples entryTriples
    simp [hlen]
    rfl
  rw [htrip]
  rfl

lemma findBestMatch_single (thr : ℝ) (mf : ℕ) (bm : ℤ) (st sid : String) (ts : ℤ)
    (R q : Fingerprint) (hq : q ≠ []) (hlen : (reshape R).length = q.length) :
    findBestMatch ⟨thr, mf, bm, [(st, [(ts, sid, R)])]⟩ q
      = if thr ≤ avgSim q (reshape R) 0 then some ⟨ts, st, avgSim q (reshape R) 0, 0⟩
        else none := by
  unfold findBestMatch
  rw [show (⟨thr, mf, bm, [(st, [(ts, sid, R)])]⟩ : Matcher).reference_fingerprints
      = [(st, [(ts, sid, R)])] from rfl]
  rw [reshape_eq hq, bestOverBuffer_single_eq st ts sid R q hlen]

lemma frameNorm_frame1000 : frameNorm frame1000 = 1 := by
  have h : ((frame1000.map fun x => x * x).sum) = 1 := by norm_num [frame1000]
  unfold frameNorm
  rw [h, Real.sqrt_one]

lemma frameNorm_frame055 : frameNorm frame055 = Real.sqrt (103/4) := by
  have h : ((frame055.map fun x => x * x).sum) = 103/4 := by norm_num [frame055]
  unfold frameNorm
  rw [h]

lemma frameNorm_frame0200 : frameNorm frame0200 = 200 := by
  have h : ((frame0200.map fun x => x * x).sum) = 200^2 := by norm_num [frame0200]
  unfold frameNorm
  rw [h, Real.sqrt_sq (by norm_num)]

lemma frameNorm_tinyFrame : frameNorm tinyFrame = 1/10^10 := by
  have h : ((tinyFrame.map fun x => x * x).sum) = (1/10^10)^2 := by norm_num [tinyFrame]
  unfold frameNorm
  rw [h, Real.sqrt_sq (by norm_num)]

lemma sqrt_103_4_le : Real.sqrt (103/4) ≤ 51/10 :=
  calc Real.sqrt (103/4) ≤ Real.sqrt ((51/10)^2) := Real.sqrt_le_sqrt (by norm_num)
    _ = 51/10 := Real.sqrt_sq (by norm_num)

lemma frameSim_c1_ge : (3/4 : ℝ) ≤ frameSim frame0200 frame055 := by
  rw [frameSim_eq frame0200 frame055 rfl]
  have hz : (List.zipWith (· * ·) frame0200 frame055).sum = 1000 := by
    norm_num [frame0200, frame055]
  rw [hz, frameNorm_frame0200, frameNorm_frame055]
  have heps := eps_pos
  have hs0 := Real.sqrt_nonneg (103/4 : ℝ)
  have hs1 := sqrt_103_4_le
  have hD : (0:ℝ) < (200 + eps) * (Real.sqrt (103/4) + eps) := by positivity
  rw [le_div_iff hD]
  have h2 : (200 + eps) * (Real.sqrt (103/4) + eps) ≤ (200 + eps) * (51/10 + eps) :=
    mul_le_mul_of_nonneg_left (by linarith) (by linarith)
  have h3 : (200 + eps) * (51/10 + eps) ≤ (4000:ℝ)/3 := by norm_num [eps]
  linarith

/-- C1: evaluated at the claim's own scenario, the code MATCHES instead
of rejecting.  With the buffer of `test_false_positive` (20 frames of
`[0.5, 0.5, 0.5, -5]` for `TestStation`) and the query of 20 frames of
`[0, 0, 0, -200]`, `_find_best_match_with_log` returns a match for
`TestStation` whose similarity reaches the default threshold `0.75`:
the cosine similarity between the two constant frames is
`1000 / ((200 + 1e-10)(√25.75 + 1e-10)) ≈ 0.985`, because both frames
are dominated by their negative dB component.  The repo's own test
asserts `None` here, so this is a bug in the code, not the claim. -/
theorem C1_false_positive_matches :
    findBestMatch c1m c1q = some ⟨1234567890, "TestStation", avgSim c1q c1ref 0, 0⟩
    ∧ (3/4 : ℝ) ≤ avgSim c1q c1ref 0 := by
  have hq : c1q ≠ [] := by simp [c1q]
  have hr : c1ref ≠ [] := by simp [c1ref]
  have hlen : (reshape c1ref).length = c1q.length := by
    rw [reshape_eq hr]
    simp [c1ref, c1q]
  have hsim : avgSim c1q c1ref 0 = frameSim frame0200 frame055 :=
    avgSim_replicate frame0200 frame055 20 (by norm_num)
  have hge : (3/4:ℝ) ≤ avgSim c1q c1ref 0 := by
    rw [hsim]
    exact frameSim_c1_ge
  refine ⟨?_, hge⟩
  show findBestMatch ⟨3/4, 10, 3, [("TestStation", [(1234567890, "TestStation", c1ref)])]⟩ c1q
      = some ⟨1234567890, "TestStation", avgSim c1q c1ref 0, 0⟩
  rw [findBestMatch_single (3/4) 10 3 "TestStation" "TestStation" 1234567890 c1ref c1q hq hlen,
    reshape_eq hr, if_pos hge]

/-- C4 as stated is false: for the non-zero one-frame sequence
`[[1e-10, 0, 0, 0]]` (norm exactly the normalization epsilon), the
self-similarity is `(1e-10)² / (2·1e-10)² = 1/4`, far from 1.0, and the
matcher returns no match at all instead of a similarity-≈1 match. -/
theorem C4_counterexample :
    findBestMatch c4tinyM tinyS = none := by
  have h2 : frameSim tinyFrame tinyFrame = 1/4 := by
    rw [frameSim_self, frameNorm_tinyFrame]
    norm_num [eps]
  have h3 : avgSim tinyS tinyS 0 = 1/4 := by
    rw [avgSim_self]
    simp [tinyS, h2]
  have hS : tinyS ≠ [] := by simp [tinyS]
  have hlen : (reshape tinyS).length = tinyS.length := by rw [reshape_eq hS]
  show findBestMatch ⟨3/4, 10, 3, [("TestStation", [(0, "TestStation", tinyS)])]⟩ tinyS = none
  rw [findBestMatch_single (3/4) 10 3 "TestStation" "TestStation" 0 tinyS tinyS hS hlen,
    reshape_eq hS, h3, if_neg (by norm_num)]

/-- C4 amended: for every non-empty sequence whose frames all have L2
norm at least `1e-8` (a hundred times the `1e-10` epsilon), querying the
single-reference buffer with the identical sequence returns a match for
that station at offset 0 with similarity at least 0.98 — in particular
above the default threshold 0.75. -/
theorem C4_exact_match_amended (ts : ℤ) (st : String) (S : Fingerprint) (hS : S ≠ [])
    (hn : ∀ f ∈ S, (1/10^8 : ℝ) ≤ frameNorm f) :
    findBestMatch ⟨3/4, 10, 3, [(st, [(ts, st, S)])]⟩ S
      = some ⟨ts, st, avgSim S S 0, 0⟩ ∧ (49/50 : ℝ) ≤ avgSim S S 0 := by
  have hbound : (49/50:ℝ) ≤ avgSim S S 0 := by
    apply avgSim_self_ge S hS
    intro f hf
    have h1 : (((1:ℝ)/10^8)/((1/10^8) + eps))^2 ≤ frameSim f f :=
      frameSim_self_ge f (1/10^8) (by norm_num) (hn f hf)
    have h2 : (49/50:ℝ) ≤ (((1:ℝ)/10^8)/((1/10^8) + eps))^2 := by norm_num [eps]
    linarith
  have hlen : (reshape S).length = S.length := by rw [reshape_eq hS]
  rw [findBestMatch_single (3/4) 10 3 st st ts S S hS hlen, reshape_eq hS,
    if_pos (le_trans (by norm_num : (3/4:ℝ) ≤ 49/50) hbound)]
  exact ⟨rfl, hbound⟩

/-- Witness for the amended C4 at the spec's concrete scenario: 20
frames of `[0.5, 0.5, 0.5, -5]` for `TestStation`, queried with the
identical 20 frames. -/
theorem C4_witness :
    findBestMatch c4m c4S = some ⟨1234567890, "TestStation", avgSim c4S c4S 0, 0⟩
    ∧ (49/50 : ℝ) ≤ avgSim c4S c4S 0 ∧ (3/4 : ℝ) ≤ avgSim c4S c4S 0 := by
  have hn : ∀ f ∈ c4S, (1/10^8 : ℝ) ≤ frameNorm f := by
    intro f hf
    simp only [c4S] at hf
    rw [(List.mem_replicate.mp hf).2, frameNorm_frame055]
    calc (1:ℝ)/10^8 ≤ 1 := by norm_num
      _ = Real.sqrt 1 := Real.sqrt_one.symm
      _ ≤ Real.sqrt (103/4) := Real.sqrt_le_sqrt (by norm_num)
  have h := C4_exact_match_amended 1234567890 "TestStation" c4S (by simp [c4S]) hn
  exact ⟨h.1, h.2, le_trans (by norm_num) h.2⟩

/-- C7 amended: `MIN_FRAMES_MATCH` (and `BUFFER_MINUTES`) never govern
the accept/reject decision — the decision of the match operation is
identical for every value of `MIN_FRAMES_MATCH`, so no configuration
makes a frame-count-gated policy govern. -/
theorem C7_min_frames_inert (thr : ℝ) (n n' : ℕ) (bm bm' : ℤ) (buf : Buffer)
    (q : Fingerprint) (q? : Option Fingerprint) :
    findBestMatch ⟨thr, n, bm, buf⟩ q = findBestMatch ⟨thr, n', bm', buf⟩ q
    ∧ findBestMatchWithLog ⟨thr, n, bm, buf⟩ q? = findBestMatchWithLog ⟨thr, n', bm', buf⟩ q? :=
  ⟨rfl, rfl⟩

/-- C7 counterexample: with the default configuration
(`MIN_FRAMES_MATCH = 10`), a two-frame query over its identical
two-frame reference is accepted by the code, while the spec's
frame-count-gated policy would reject it (only 2 frame pairs exist, so
no 10 frame pairs can exceed the threshold): the code's decision is not
the gated policy under any of its shipped configurations. -/
theorem C7_counterexample :
    findBestMatch c7m c7q = some ⟨0, "S", avgSim c7q c7ref 0, 0⟩
    ∧ gatedFindBestMatch c7m c7q = none := by
  have hq : c7q ≠ [] := by simp [c7q]
  have hr : c7ref ≠ [] := by simp [c7ref]
  have hlen : (reshape c7ref).length = c7q.length := by
    rw [reshape_eq hr]
    simp [c7ref, c7q]
  have hsim : avgSim c7q c7ref 0 = frameSim frame1000 frame1000 :=
    avgSim_replicate frame1000 frame1000 2 (by norm_num)
  have hge : (3/4:ℝ) ≤ avgSim c7q c7ref 0 := by
    rw [hsim, frameSim_self, frameNorm_frame1000]
    norm_num [eps]
  constructor
  · show findBestMatch ⟨3/4, 10, 3, [("S", [(0, "S", c7ref)])]⟩ c7q
      = some ⟨0, "S", avgSim c7q c7ref 0, 0⟩
    rw [findBestMatch_single (3/4) 10 3 "S" "S" 0 c7ref c7q hq hlen, reshape_eq hr,
      if_pos hge]
  · unfold gatedFindBestMatch
    rw [show c7m.reference_fingerprints = [("S", [(0, "S", c7ref)])] from rfl]
    rw [reshape_eq hq, bestOverBuffer_single_eq "S" 0 "S" c7ref c7q hlen]
    have hcount : bestCountAbove c7m c7q ⟨0, "S", avgSim c7q (reshape c7ref) 0, 0⟩ ≤ 2 := by
      show countAbove c7m.MATCH_THRESHOLD c7q (reshape c7ref) 0 ≤ 2
      unfold countAbove
      calc (List.filter (fun s => decide (c7m.MATCH_THRESHOLD ≤ s))
            (List.zipWith frameSim c7q ((reshape c7ref).drop 0))).length
          ≤ (List.zipWith frameSim c7q ((reshape c7ref).drop 0)).length :=
            List.length_filter_le _ _
        _ ≤ 2 := by
            rw [List.length_zipWith]
            simp [c7q, c7ref, reshape_eq hr]
    have hnot : ¬(c7m.MATCH_THRESHOLD
          ≤ (⟨0, "S", avgSim c7q (reshape c7ref) 0, 0⟩ : MatchRes).sim
        ∧ c7m.MIN_FRAMES_MATCH
          ≤ bestCountAbove c7m c7q ⟨0, "S", avgSim c7q (reshape c7ref) 0, 0⟩) := by
      intro hand
      have h10 : (10:ℕ) ≤ 2 := le_trans hand.2 hcount
      norm_num at h10
    show (if c7m.MATCH_THRESHOLD
          ≤ (⟨0, "S", avgSim c7q (reshape c7ref) 0, 0⟩ : MatchRes).sim
        ∧ c7m.MIN_FRAMES_MATCH
          ≤ bestCountAbove c7m c7q ⟨0, "S", avgSim c7q (reshape c7ref) 0, 0⟩
        then some (⟨0, "S", avgSim c7q (reshape c7ref) 0, 0⟩ : MatchRes) else none) = none
    exact if_neg hnot

/-- C6: the match decision depends only on the buffer contents and the
threshold (two matchers agreeing on those return identical results),
and the fold keeps the first maximum of the deterministic iteration
order — strictly dominated triples before it, and later triples of
merely equal score, never displace it. -/
theorem C6_first_max_deterministic (m m2 : Matcher) (q : Fingerprint)
    (hbuf : m.reference_fingerprints = m2.reference_fingerprints)
    (hthr : m.MATCH_THRESHOLD = m2.MATCH_THRESHOLD)
    (l₁ l₂ : List MatchRes) (r : MatchRes)
    (hdec : allTriples m.reference_fingerprints (reshape q) = l₁ ++ r :: l₂)
    (h₁ : ∀ x ∈ l₁, x.sim < r.sim) (h₂ : ∀ x ∈ l₂, x.sim ≤ r.sim) :
    findBestMatch m q = findBestMatch m2 q
    ∧ bestOverBuffer m.reference_fingerprints (reshape q) = some r := by
  constructor
  · unfold findBestMatch
    rw [hbuf, hthr]
  · rw [bestOverBuffer_eq, hdec]
    exact foldl_keepBest_first l₁ l₂ r h₁ h₂

/-- Witness for C6: a one-frame query against a two-frame constant
reference produces two comparisons of equal similarity; the result kept
is the one at offset 0, the first encountered, and a matcher differing
only in `MIN_FRAMES_MATCH`/`BUFFER_MINUTES` returns the same result. -/
theorem C6_witness :
    findBestMatch c6m c6q = findBestMatch c6m2 c6q
    ∧ bestOverBuffer c6m.reference_fingerprints (reshape c6q)
        = some ⟨0, "S", avgSim c6q c6ref 0, 0⟩ := by
  have h₂ : ∀ x ∈ [(⟨0, "S", avgSim c6q c6ref 1, 1⟩ : MatchRes)],
      x.sim ≤ (⟨0, "S", avgSim c6q c6ref 0, 0⟩ : MatchRes).sim := by
    intro x hx
    rw [List.mem_singleton.mp hx]
    exact le_of_eq rfl
  exact C6_first_max_deterministic c6m c6m2 c6q rfl rfl []
    [⟨0, "S", avgSim c6q c6ref 1, 1⟩] ⟨0, "S", avgSim c6q c6ref 0, 0⟩ rfl
    (by simp) h₂

/-- C3: on inputs where numpy raises nothing, the match operation
returns a result exactly when some (source, entry, offset) triple
reaches `MATCH_THRESHOLD`; a `None` decision is returned together with
the summary built from the final best tuple, whose similarity, station
and offset fields the summary carries rather than discards. -/
theorem C3_threshold_iff_and_exposure (m : Matcher) (q : Fingerprint)
    (hwf : wellFormedQ m q) :
    ((findBestMatchWithLog m (some q)).1 ≠ none ↔
      ∃ t ∈ allTriples m.reference_fingerprints (reshape q), m.MATCH_THRESHOLD ≤ t.sim)
    ∧ ((findBestMatchWithLog m (some q)).1 = none →
        findBestMatchWithLog m (some q)
          = (none, noMatchSummary (bestOverBuffer m.reference_fingerprints (reshape q))))
    ∧ ∀ b : MatchRes, noMatchSummary (some b)
        = Summary.noMatch (some b.sim) (some (toString b.ts ++ "_" ++ b.station))
            (some b.station) b.offset := by
  refine ⟨?_, ?_, fun b => rfl⟩
  · rw [withLog_fst m q hwf]
    unfold findBestMatch
    cases hb : bestOverBuffer m.reference_fingerprints (reshape q) with
    | none =>
      show (none : Option MatchRes) ≠ none ↔ _
      constructor
      · intro h
        exact absurd rfl h
      · rintro ⟨t, ht, -⟩
        have hsome : (bestOverBuffer m.reference_fingerprints (reshape q)).isSome =
            true := bestOverBuffer_isSome _ _ (List.ne_nil_of_mem ht)
        rw [hb] at hsome
        simp at hsome
    | some b =>
      obtain ⟨hmem, hmax⟩ := bestOverBuffer_spec _ _ b hb
      by_cases ht : m.MATCH_THRESHOLD ≤ b.sim
      · show (if m.MATCH_THRESHOLD ≤ b.sim then some b else none) ≠ none ↔ _
        rw [if_pos ht]
        constructor
        · intro _
          exact ⟨b, hmem, ht⟩
        · intro _
          simp
      · show (if m.MATCH_THRESHOLD ≤ b.sim then some b else none) ≠ none ↔ _
        rw [if_neg ht]
        constructor
        · intro h
          exact absurd rfl h
        · rintro ⟨t, htm, hthr⟩
          exact absurd (le_trans hthr (hmax t htm)) ht
  · intro hn
    have hn' : findBestMatch m q = none := by
      rw [← withLog_fst m q hwf]
      exact hn
    exact withLog_none m q hwf hn'

/-- Witness for C3: buffer with the single reference `[[1,0,0,0]]`
queried with the orthogonal `[[0,1,0,0]]`. -/
theorem C3_witness :
    ((findBestMatchWithLog c3m (some c3q)).1 ≠ none ↔
      ∃ t ∈ allTriples c3m.reference_fingerprints (reshape c3q), c3m.MATCH_THRESHOLD ≤ t.sim)
    ∧ ((findBestMatchWithLog c3m (some c3q)).1 = none →
        findBestMatchWithLog c3m (some c3q)
          = (none, noMatchSummary (bestOverBuffer c3m.reference_fingerprints (reshape c3q))))
    ∧ ∀ b : MatchRes, noMatchSummary (some b)
        = Summary.noMatch (some b.sim) (some (toString b.ts ++ "_" ++ b.station))
            (some b.station) b.offset := by
  apply C3_threshold_iff_and_exposure c3m c3q
  refine ⟨rfl, ?_⟩
  intro p hp e he
  rw [show c3m.reference_fingerprints = [("S", [(0, "S", [frame1000])])] from rfl,
    List.mem_singleton] at hp
  subst hp
  rw [List.mem_singleton] at he
  subst he
  exact ⟨rfl, fun _ => rfl⟩

/-- C10: whatever the body of `_find_best_match_with_log` raises is
caught by its `except Exception` handler, which returns `None` paired
with the diagnostic error line — no exception propagates to the
caller. -/
theorem C10_catch_all (m : Matcher) (q? : Option Fingerprint) (e : MatchError)
    (h : matchBody m q? = Except.error e) :
    findBestMatchWithLog m q? = (none, Summary.error (errorText e)) := by
  unfold findBestMatchWithLog
  rw [h]

/-- Witness for C10: a ragged query (rows of length 4 and 2) makes the
body fail at array creation, and the caller still receives a value:
`None` plus the diagnostic. -/
theorem C10_witness :
    findBestMatchWithLog c2m (some [frame1000, [1, 0]])
      = (none, Summary.error (errorText MatchError.raggedArray)) :=
  C10_catch_all c2m (some [frame1000, [1, 0]]) MatchError.raggedArray rfl

/-- C2: whenever the match engine reports no match for a device's
record, per-device processing completes without raising (`Except.ok`)
and writes the `station = "Unknown"`, `confidence = 0.0` document to
the result sink, carrying the diagnostic summary. -/
theorem C2_no_match_writes_unknown (m : Matcher) (tstr : String) (f : QueryFile)
    (s : Summary) (h : findBestMatchWithLog m f.data.fingerprint = (none, s)) :
    processDevice m tstr f = Except.ok (⟨tstr, "Unknown", 0, s⟩, tstr) := by
  unfold processDevice
  rw [h]
  rfl

/-- Witness for C2: a well-formed query against an empty buffer. -/
theorem C2_witness :
    processDevice c2m "t0" c2f = Except.ok (⟨"t0", "Unknown", 0, noMatchSummary none⟩, "t0") :=
  C2_no_match_writes_unknown c2m "t0" c2f (noMatchSummary none) rfl

/-- C5: every entry of the buffer view produced by a refresh cycle —
the view the same cycle's match operation reads — has age at most
`BUFFER_MINUTES * 60` seconds relative to the cycle's clock reading,
whatever the incoming blobs and the previous buffer contained. -/
theorem C5_snapshot_fresh (m : Matcher) (now : ℤ) (blobs : List RefBlob)
    (buf : Buffer) (st : String) (es : List (ℤ × String × Fingerprint))
    (e : ℤ × String × Fingerprint)
    (hst : (st, es) ∈ loadReferenceFingerprints m now blobs buf) (he : e ∈ es) :
    now - e.1 ≤ m.BUFFER_MINUTES * 60 := by
  unfold loadReferenceFingerprints sweep at hst
  obtain ⟨p, hp, heq⟩ := List.mem_map.mp hst
  rw [Prod.ext_iff] at heq
  obtain ⟨h1, h2⟩ := heq
  dsimp only at h1 h2
  rw [← h2] at he
  have hdec := (List.mem_filter.mp he).2
  have hle := of_decide_eq_true hdec
  linarith

/-- Witness for C5: one in-window blob loaded into an empty buffer. -/
theorem C5_witness : (1000 : ℤ) - 900 ≤ c5m.BUFFER_MINUTES * 60 :=
  C5_snapshot_fresh c5m 1000 [c5blob] [] "S" [(900, "S", [frame1000])]
    (900, "S", [frame1000])
    (by rw [show loadReferenceFingerprints c5m 1000 [c5blob] []
          = [("S", [(900, "S", [frame1000])])] from rfl]
        exact List.mem_singleton.mpr rfl)
    (List.mem_singleton.mpr rfl)

/-- C8 amended: reference records missing `fingerprint` are indeed
skipped (never inserted), but query records are not validated — a query
record with no `fingerprint` is still handed to the match engine, whose
internal failure is caught, and an `Unknown`/0.0 result is written for
it; the per-device step completes without raising. -/
theorem C8_no_query_validation (cutoff : ℤ) (buf : Buffer) (ts : ℤ) (st : String)
    (m : Matcher) (tstr : String) (name : String) (fts : ℤ) (uts : Option ℤ) :
    loadRefStep cutoff buf ⟨some (ts, st), none⟩ = buf
    ∧ processDevice m tstr ⟨fts, name, ⟨none, uts⟩⟩
        = Except.ok (⟨tstr, "Unknown", 0, Summary.error (errorText MatchError.axisError)⟩,
            tstr) := by
  constructor
  · show (if ts < cutoff then buf
      else if (lookupStation buf st).any fun e => e.1 = ts && e.2.1 = st then buf
      else buf) = buf
    split
    · rfl
    · split <;> rfl
  · rfl

/-- C8 counterexample: the record `b.json` missing both `fingerprint`
and `device_id` is not skipped — it is grouped under device `unknown`,
selected, submitted to the match engine, and produces a sink write. -/
theorem C8_counterexample :
    deviceInvocations [("unknown", [c8f])] [] = [("unknown", c8f)]
    ∧ processDevice c2m "t0" c8f
        = Except.ok (⟨"t0", "Unknown", 0, Summary.error (errorText MatchError.axisError)⟩,
            "t0") := by
  constructor
  · simp [deviceInvocations, selectNewest, pySortedDesc, c8f]
  · rfl

lemma nodup_key_unique {α β : Type _} :
    ∀ (l : List (α × β)), (l.map Prod.fst).Nodup →
      ∀ a b b', (a, b) ∈ l → (a, b') ∈ l → b = b' := by
  intro l
  induction l with
  | nil =>
    intro _ a b b' h1 _
    cases h1
  | cons p t ih =>
    intro h a b b' h1 h2
    simp only [List.map_cons, List.nodup_cons] at h
    rcases List.mem_cons.mp h1 with heq1 | h1'
    · rcases List.mem_cons.mp h2 with heq2 | h2'
      · rw [← heq1] at heq2
        exact ((Prod.mk.inj heq2).2).symm
      · rw [← heq1] at h
        exact absurd (List.mem_map.mpr ⟨(a, b'), h2', rfl⟩) h.1
    · rcases List.mem_cons.mp h2 with heq2 | h2'
      · rw [← heq2] at h
        exact absurd (List.mem_map.mpr ⟨(a, b), h1', rfl⟩) h.1
      · exact ih h.2 a b b' h1' h2'

lemma selectNewest_spec (files : List QueryFile) (r : QueryFile)
    (h : selectNewest files = some r) : r ∈ files ∧ ∀ x ∈ files, x.ts ≤ r.ts := by
  unfold selectNewest pySortedDesc at h
  have hperm := List.mergeSort_perm files (fun a b => decide (b.ts ≤ a.ts))
  have htrans : ∀ (a b c : QueryFile), (decide (b.ts ≤ a.ts)) = true →
      (decide (c.ts ≤ b.ts)) = true → (decide (c.ts ≤ a.ts)) = true := by
    intro a b c hab hbc
    simp only [decide_eq_true_eq] at hab hbc ⊢
    exact le_trans hbc hab
  have htotal : ∀ (a b : QueryFile),
      ((decide (b.ts ≤ a.ts)) || (decide (a.ts ≤ b.ts))) = true := by
    intro a b
    simp only [Bool.or_eq_true, decide_eq_true_eq]
    exact le_total _ _
  have hsorted := List.sorted_mergeSort htrans htotal files
  cases hs : files.mergeSort (fun a b => decide (b.ts ≤ a.ts)) with
  | nil =>
    rw [hs] at h
    cases h
  | cons a t =>
    rw [hs] at h
    have hra : a = r := Option.some_injective _ (show some a = some r from h)
    subst hra
    rw [hs] at hsorted hperm
    constructor
    · exact hperm.mem_iff.mp (List.mem_cons_self a t)
    · intro x hx
      have hx' : x ∈ a :: t := hperm.mem_iff.mpr hx
      rcases List.mem_cons.mp hx' with heq | hxt
      · rw [heq]
      · exact of_decide_eq_true ((List.pairwise_cons.mp hsorted).1 x hxt)

lemma deviceInvocations_spec (df : List (String × List QueryFile)) (processed : List String)
    (d : String) (r : QueryFile) (hr : (d, r) ∈ deviceInvocations df processed) :
    ∃ files, (d, files) ∈ df ∧ selectNewest files = some r ∧ r.name ∉ processed := by
  unfold deviceInvocations at hr
  obtain ⟨p, hp, he⟩ := List.mem_filterMap.mp hr
  cases hsel : selectNewest p.2 with
  | none =>
    rw [hsel] at he
    cases he
  | some f =>
    rw [hsel] at he
    have he' : (if f.name ∈ processed then (none : Option (String × QueryFile))
        else some (p.1, f)) = some (d, r) := he
    by_cases hn : f.name ∈ processed
    · rw [if_pos hn] at he'
      cases he'
    · rw [if_neg hn] at he'
      obtain ⟨h1, h2⟩ := Prod.mk.inj (Option.some_injective _ he')
      subst h2
      refine ⟨p.2, ?_, hsel, hn⟩
      have hpd : p = (d, p.2) := Prod.ext h1 rfl
      rw [← hpd]
      exact hp

/-- C9: every record a cycle submits to the match engine for a device
is one of that device's pending records with the maximal timestamp, and
at most one record per device is submitted — the older pending records
for the device are not matched in that cycle. -/
theorem C9_newest_per_device (df : List (String × List QueryFile)) (processed : List String)
    (d : String) (files : List QueryFile) (r : QueryFile)
    (hnd : (df.map Prod.fst).Nodup) (hmem : (d, files) ∈ df)
    (hr : (d, r) ∈ deviceInvocations df processed) :
    r ∈ files ∧ (∀ x ∈ files, x.ts ≤ r.ts)
    ∧ ∀ x : QueryFile, (d, x) ∈ deviceInvocations df processed → x = r := by
  obtain ⟨es, hes, hsel, -⟩ := deviceInvocations_spec df processed d r hr
  have hfe : es = files := nodup_key_unique df hnd d es files hes hmem
  subst hfe
  obtain ⟨hmemf, hmaxf⟩ := selectNewest_spec es r hsel
  refine ⟨hmemf, hmaxf, ?_⟩
  intro x hx
  obtain ⟨es', hes', hsel', -⟩ := deviceInvocations_spec df processed d x hx
  have hfe' : es' = es := nodup_key_unique df hnd d es' es hes' hes
  rw [hfe'] at hsel'
  exact Option.some_injective _ (hsel'.symm.trans hsel)

/-- Witness for C9: one device with one pending record; the record is
selected, is trivially the newest, and is the only submission. -/
theorem C9_witness :
    c9f ∈ [c9f] ∧ (∀ x ∈ [c9f], x.ts ≤ c9f.ts)
    ∧ ∀ x : QueryFile, ("dev", x) ∈ deviceInvocations [("dev", [c9f])] [] → x = c9f := by
  apply C9_newest_per_device [("dev", [c9f])] [] "dev" [c9f] c9f
  · simp
  · simp
  · simp [deviceInvocations, selectNewest, pySortedDesc]

end Radiolytics
